import Mathlib

/-!
Shallow embedding of the task lifecycle and scheduling engine of
`imapsyncui.py` (class methods `_start_sync`, `_scheduled_sync`,
`_run_imapsync_for_task`, `_stop_sync`, `_search_logs`, `_export_logs`,
and the submission flow of `action_launch_sync` / `action_add_sync_task`).

The worker thread body `_run_imapsync_for_task` is embedded at the
granularity of its `with self.lock:` blocks: each locked block that
mutates the task becomes one atomic `Action`, and the whole body becomes
a list of actions.  A small-step system (`Sys`, `Ev`, `step`) interleaves
worker actions with the externally triggered events `_stop_sync` and the
`threading.Timer` callback `_scheduled_sync`, which is how the racing
behaviours of the source are analysed.

Machine integers: the only integer produced by the environment is a
process return code, kept as `Int`; task intervals are `Nat` (minutes).
Statuses are the exact French strings of the source.
-/

namespace ImapsyncUI

/-- Lower-casing of one character, mirroring Python `str.lower` on the
character set this program actually handles: ASCII letters plus the
accented capitals of French (Latin-1). -/
def lowerChar (c : Char) : Char :=
  if 'A' ≤ c ∧ c ≤ 'Z' then Char.ofNat (c.toNat + 32)
  else
    match c with
    | 'À' => 'à' | 'Â' => 'â' | 'Ä' => 'ä' | 'Ç' => 'ç'
    | 'É' => 'é' | 'È' => 'è' | 'Ê' => 'ê' | 'Ë' => 'ë'
    | 'Î' => 'î' | 'Ï' => 'ï' | 'Ô' => 'ô' | 'Ö' => 'ö'
    | 'Ù' => 'ù' | 'Û' => 'û' | 'Ü' => 'ü'
    | c => c

/-- Python `s.lower()`, character-wise. -/
def lowerStr (s : String) : String := String.mk (s.data.map lowerChar)

/-- Sub-list (contiguous substring) test on character lists; mirrors the
Python containment test `needle in hay`. -/
def subList (n : List Char) : List Char → Bool
  | [] => n.isEmpty
  | c :: t => n.isPrefixOf (c :: t) || subList n t

/-- Python `needle in hay` on strings. -/
def strContains (hay needle : String) : Bool := subList needle.data hay.data

/-- One log line matches the failure signal of `_run_imapsync_for_task`
line 761: `"échouée" in log.lower() or "erreur" in log.lower()`. -/
def isFailureLog (log : String) : Bool :=
  strContains (lowerStr log) "échouée" || strContains (lowerStr log) "erreur"

/-- The generator-`any` over a task logs at line 761. -/
def anyFailureLog (logs : List String) : Bool := logs.any isFailureLog

/-- Python `" ".join(cmd)` (line 719). -/
def joinSpace : List String → String
  | [] => ""
  | [x] => x
  | x :: y :: t => x ++ " " ++ joinSpace (y :: t)

/-- Truthiness of `dict.get(key)` for a string-valued option (Python:
missing key or empty string are falsy). -/
def optTruthy : Option String → Bool
  | none => false
  | some s => !s.isEmpty

/-- Truthiness of `dict.get(key)` for an integer-valued option (Python:
missing key or 0 are falsy). -/
def natTruthy : Option Nat → Bool
  | none => false
  | some n => n != 0

/-- One account record of a project, as read with `acc.get(...)` at
lines 674-677; every field access supplies a default, so each field is
optional. -/
structure Account where
  source_email : Option String
  target_email : Option String
  password : Option String
  subfolder : Option String
deriving Repr, DecidableEq

/-- The `imapsync_options` mapping of a project, as consulted at lines
690-713. -/
structure ImapsyncOptions where
  ssl1 : Bool
  ssl2 : Bool
  tls1 : Bool
  tls2 : Bool
  logfile : Option String
  authmech1 : Option String
  authmech2 : Option String
  automap : Bool
  regextrans2 : Option String
  delete2 : Bool
  maxsize : Option Nat
  minsize : Option Nat
deriving Repr, DecidableEq

/-- An options record with everything disabled, for concrete tests. -/
def noOptions : ImapsyncOptions :=
  { ssl1 := false, ssl2 := false, tls1 := false, tls2 := false,
    logfile := none, authmech1 := none, authmech2 := none,
    automap := false, regextrans2 := none, delete2 := false,
    maxsize := none, minsize := none }

/-- The argument list built for one account at lines 679-717 of
`_run_imapsync_for_task`.  Note that `--password1` and `--password2`
both receive the same `password` value (lines 683 and 686). -/
def build_cmd (imapsync_bin old_server new_server : String)
    (o : ImapsyncOptions) (acc : Account) : List String :=
  let src_email := acc.source_email.getD ""
  let tgt_email := acc.target_email.getD src_email
  let password := acc.password.getD ""
  let subfolder := acc.subfolder.getD ""
  [imapsync_bin,
   "--host1", old_server,
   "--user1", src_email,
   "--password1", password,
   "--host2", new_server,
   "--user2", tgt_email,
   "--password2", password]
  ++ (if o.ssl1 then ["--ssl1"] else [])
  ++ (if o.ssl2 then ["--ssl2"] else [])
  ++ (if o.tls1 then ["--tls1"] else [])
  ++ (if o.tls2 then ["--tls2"] else [])
  ++ (if optTruthy o.logfile then ["--logfile", o.logfile.getD ""] else [])
  ++ (if optTruthy o.authmech1 then ["--authmech1", o.authmech1.getD ""] else [])
  ++ (if optTruthy o.authmech2 then ["--authmech2", o.authmech2.getD ""] else [])
  ++ (if o.automap then ["--automap"] else [])
  ++ (if optTruthy o.regextrans2 then ["--regextrans2", o.regextrans2.getD ""] else [])
  ++ (if o.delete2 then ["--delete2"] else [])
  ++ (if natTruthy o.maxsize then ["--maxsize", toString (o.maxsize.getD 0)] else [])
  ++ (if natTruthy o.minsize then ["--minsize", toString (o.minsize.getD 0)] else [])
  ++ (if !subfolder.isEmpty then ["--regextrans2", "s/^(.*)/" ++ subfolder ++ "/$1"] else [])

/-- The mutable per-task record created by `_start_sync` (lines 616-626).
`procLive` models `task["process"] is not None and process.poll() is
None`; `timerPending` models a started `threading.Timer` that has not
yet fired. -/
structure Task where
  project_name : String
  status : String
  logs : List String
  procLive : Bool
  selected_accounts : List Account
  interval : Nat
  timerPending : Bool
  expanded : Bool
deriving Repr, DecidableEq

/-- Task creation by `_start_sync` lines 616-626 together with the timer
arming of lines 635-640: the timer is started right at submission when
`interval > 0`. -/
def mkTask (project_name : String) (selected_accounts : List Account)
    (interval : Nat) : Task :=
  { project_name := project_name,
    status := "En cours",
    logs := [],
    procLive := false,
    selected_accounts := selected_accounts,
    interval := interval,
    timerPending := decide (0 < interval),
    expanded := false }

/-- One atomic task mutation, corresponding to one `with self.lock:`
block of the worker body `_run_imapsync_for_task` (plus the implicit
flip of `poll()` when the process exits). -/
inductive Action
  | appendLog (line : String)
  | setProcLive (b : Bool)
  | setStatus (s : String)
  | finalWrite
deriving Repr, DecidableEq

/-- Effect of one atomic action on the task.  `finalWrite` is the
unconditional aggregate-status write of lines 758-764: it inspects only
the accumulated logs, never the current status. -/
def applyAction (t : Task) : Action → Task
  | .appendLog l => { t with logs := t.logs ++ [l] }
  | .setProcLive b => { t with procLive := b }
  | .setStatus s => { t with status := s }
  | .finalWrite =>
    { t with status :=
        if anyFailureLog t.logs then "Erreur: échecs sur un ou plusieurs comptes"
        else "Terminée" }

/-- What the environment did for one account: either the process was
spawned, streamed `lines`, wrote `stderr` and exited with code `rc`
(the normal path of lines 723-753), or an exception was raised at line
754 — `spawned` tells whether `Popen` had succeeded, `lines` what had
been streamed before the exception. -/
inductive AccountOutcome
  | ran (lines : List String) (stderr : String) (rc : Int)
  | raised (spawned : Bool) (lines : List String) (msg : String)
deriving Repr, DecidableEq

/-- The per-line appends of the streaming loop, lines 733-737: each line
read is stripped and appended under its own lock acquisition. -/
def streamActions (lines : List String) : List Action :=
  lines.map (fun l => Action.appendLog l.trim)

/-- The stderr append of lines 742-746, guarded by `if err_output:`. -/
def stderrActions (stderr : String) : List Action :=
  if stderr.isEmpty then [] else [Action.appendLog ("ERREUR: " ++ stderr.trim)]

/-- The per-account result line of lines 749-753. -/
def resultLine (src tgt : String) (rc : Int) : String :=
  if rc == 0 then "Synchronisation OK pour " ++ src ++ " -> " ++ tgt
  else "Synchronisation échouée pour " ++ src ++ " -> " ++ tgt
       ++ " (Code " ++ toString rc ++ ")"

/-- The atomic actions of one iteration of the account loop, lines
673-756.  The `try` block spans everything after the command-line
append; the `except` branch appends the exception message and the loop
continues with the next account. -/
def accountActions (imapsync_bin old_server new_server : String)
    (o : ImapsyncOptions) (acc : Account) (out : AccountOutcome) : List Action :=
  let src := acc.source_email.getD ""
  let tgt := acc.target_email.getD src
  Action.appendLog ("Commande : " ++ joinSpace (build_cmd imapsync_bin old_server new_server o acc)) ::
  match out with
  | .ran lines stderr rc =>
    Action.setProcLive true ::
    streamActions lines ++ [Action.setProcLive false] ++ stderrActions stderr
      ++ [Action.appendLog (resultLine src tgt rc)]
  | .raised spawned lines msg =>
    (if spawned then [Action.setProcLive true] else []) ++ streamActions lines
      ++ [Action.appendLog ("Exception lors de la synchro: " ++ msg)]

/-- The configuration and filesystem environment read by the worker:
whether the project lookup of line 657 succeeds, whether the binary
exists (line 664), and the values of lines 662, 669-671. -/
structure Env where
  projectFound : Bool
  binExists : Bool
  imapsync_bin : String
  old_server : String
  new_server : String
  opts : ImapsyncOptions
deriving Repr, DecidableEq

/-- The full action list of one invocation of `_run_imapsync_for_task`
(lines 652-764) on a task whose `selected_accounts` are `accounts`,
with one `AccountOutcome` supplied by the environment per account:
missing project sets the status without logging (lines 658-660),
missing binary logs then sets the status (lines 664-667), otherwise the
account loop runs and ends with the aggregate-status write. -/
def runActions (env : Env) (accounts : List Account)
    (outs : List AccountOutcome) : List Action :=
  if !env.projectFound then
    [Action.setStatus "Erreur: Projet introuvable"]
  else if !env.binExists then
    [Action.appendLog ("Binaire imapsync introuvable à " ++ env.imapsync_bin),
     Action.setStatus "Erreur: imapsync introuvable"]
  else
    ((accounts.zip outs).map
      (fun p => accountActions env.imapsync_bin env.old_server env.new_server env.opts p.1 p.2)).flatten
    ++ [Action.finalWrite]

/-- One whole uninterleaved execution of `_run_imapsync_for_task` on a
task (the worker thread running alone). -/
def run_imapsync (env : Env) (outs : List AccountOutcome) (t : Task) : Task :=
  (runActions env t.selected_accounts outs).foldl applyAction t

/-- The task mutation of `_stop_sync`, lines 1173-1180: only when the
process handle is live does it terminate the process, set the status
and append the log line; the `timer` field is never touched. -/
def stopTask (t : Task) : Task × Bool :=
  if t.procLive then
    ({ t with status := "Arrêtée",
              logs := t.logs ++ ["Synchronisation arrêtée manuellement."] }, true)
  else (t, false)

/-- Result reported by `_stop_sync` via `popup_message`. -/
inductive StopRes
  | noTask
  | stopped
  | notRunning
deriving Repr, DecidableEq

/-- `_stop_sync` (lines 1167-1180) on the looked-up task. -/
def stop_sync : Option Task → Option Task × StopRes
  | none => (none, .noTask)
  | some t =>
    let r := stopTask t
    (some r.1, if r.2 then .stopped else .notRunning)

/-- The status guard of `_scheduled_sync` line 645: the timer callback
starts a new run exactly when the current status is one of these three;
note that the in-flight status "En cours" is in the list. -/
def rearmable (status : String) : Bool :=
  status == "En cours" || status == "Terminée"
    || status == "Erreur: échecs sur un ou plusieurs comptes"

/-- The interleaved system for one task: the shared task record plus the
pending action lists of the worker threads currently in flight. -/
structure Sys where
  task : Task
  workers : List (List Action)
deriving Repr, DecidableEq

/-- An event of the interleaving: one atomic step of worker `i`, a call
of `_stop_sync`, or the firing of the `threading.Timer` armed at
submission (whose callback `_scheduled_sync` receives the account
outcomes `outs` from the environment for the run it may start). -/
inductive Ev
  | work (i : Nat)
  | stopCall
  | timerFire (outs : List AccountOutcome)
deriving Repr, DecidableEq

/-- Small-step transition.  `timerFire` consumes the one-shot timer and,
per `_scheduled_sync` (lines 642-650), starts a new worker when the
status guard passes — without arming any further timer. -/
def step (env : Env) (s : Sys) : Ev → Sys
  | .work i =>
    match s.workers[i]? with
    | some (a :: rest) =>
      { task := applyAction s.task a, workers := s.workers.set i rest }
    | _ => s
  | .stopCall => { s with task := (stopTask s.task).1 }
  | .timerFire outs =>
    if s.task.timerPending then
      if rearmable s.task.status then
        { task := { s.task with timerPending := false },
          workers := s.workers ++ [runActions env s.task.selected_accounts outs] }
      else
        { task := { s.task with timerPending := false }, workers := s.workers }
    else s

/-- Run a sequence of events. -/
def runTrace (env : Env) (s : Sys) (evs : List Ev) : Sys :=
  evs.foldl (step env) s

/-- The system right after `_start_sync` (lines 613-640): the task is
created, the first worker is started with the environment-chosen
outcomes `outs`, and the timer is armed when `interval > 0`. -/
def init_sys (env : Env) (project_name : String)
    (selected_accounts : List Account) (interval : Nat)
    (outs : List AccountOutcome) : Sys :=
  { task := mkTask project_name selected_accounts interval,
    workers := [runActions env selected_accounts outs] }

/-- The task table `self.sync_tasks`. -/
abbrev TaskTable := List (String × Task)

/-- Result of the submission flow as reported to the caller. -/
inductive SubmitRes
  | ok
  | invalidRequest
deriving Repr, DecidableEq

/-- Table change of one `_start_sync` call (line 616): a fresh entry. -/
def start_sync (table : TaskTable) (tid project_name : String)
    (selected_accounts : List Account) (interval : Nat) : TaskTable :=
  table ++ [(tid, mkTask project_name selected_accounts interval)]

/-- The submission flow of `action_launch_sync` / `action_add_sync_task`
(lines 526-541 and 583-597): an empty account selection is rejected with
a synchronous error popup before any task exists (lines 527-529,
584-586); otherwise one task per selected account is created by the loop
`for acc in selected_accounts: self._start_sync(project, [acc], interval)`.
`ids` supplies the fresh task identifier for each created task. -/
def submit (table : TaskTable) (project_name : String)
    (selected_accounts : List Account) (interval : Nat)
    (ids : Nat → String) : TaskTable × SubmitRes :=
  if selected_accounts.isEmpty then (table, .invalidRequest)
  else
    (selected_accounts.enum.foldl
      (fun tb p => start_sync tb (ids p.1) project_name [p.2] interval) table,
     .ok)

/-- The log lines appended by a list of actions, in order. -/
def actionLogs : List Action → List String
  | [] => []
  | .appendLog l :: rest => l :: actionLogs rest
  | _ :: rest => actionLogs rest

/-- The per-line writes of the export loop, line 1273-1274: each log
line followed by a newline. -/
def logsBlock : List String → String
  | [] => ""
  | l :: t => l ++ "\n" ++ logsBlock t

/-- `_export_logs` body for one task (lines 1270-1275). -/
def export_task (tid : String) (t : Task) : String :=
  "=== Tâche: " ++ tid ++ " ===\n"
  ++ "Projet: " ++ t.project_name ++ "\n"
  ++ "Status: " ++ t.status ++ "\nLogs:\n"
  ++ logsBlock t.logs
  ++ "\n"

/-- The text written by `_export_logs` (lines 1266-1275): every task of
the table, in order. -/
def export_logs : TaskTable → String
  | [] => ""
  | p :: rest => export_task p.1 p.2 ++ export_logs rest

/-- `_search_logs` match collection (lines 1247-1252). -/
def search_logs (table : TaskTable) (term : String) : List String :=
  (table.map (fun p =>
    (p.2.logs.filter (fun line => strContains (lowerStr line) (lowerStr term))).map
      (fun line => "[" ++ p.1 ++ "] " ++ line))).flatten

/-! ### Infrastructure lemmas -/

theorem actionLogs_append (l1 l2 : List Action) :
    actionLogs (l1 ++ l2) = actionLogs l1 ++ actionLogs l2 := by
  induction l1 with
  | nil => simp [actionLogs]
  | cons a t ih => cases a <;> simp [actionLogs, ih]

theorem actionLogs_stream (lines : List String) :
    actionLogs (streamActions lines) = lines.map (fun l => l.trim) := by
  induction lines with
  | nil => rfl
  | cons l t ih =>
    simp only [streamActions] at ih ⊢
    simp [actionLogs, ih]

theorem foldl_applyAction_logs (acts : List Action) (t : Task) :
    (acts.foldl applyAction t).logs = t.logs ++ actionLogs acts := by
  induction acts generalizing t with
  | nil => simp [actionLogs]
  | cons a rest ih =>
    rw [List.foldl_cons, ih]
    cases a <;> simp [applyAction, actionLogs]

/-- Actions that touch only the logs or the process handle. -/
def isLogOrProc : Action → Bool
  | .appendLog _ => true
  | .setProcLive _ => true
  | _ => false

theorem foldl_applyAction_status (acts : List Action) :
    ∀ t : Task, acts.all isLogOrProc = true →
      (acts.foldl applyAction t).status = t.status := by
  induction acts with
  | nil => intro t _; rfl
  | cons a rest ih =>
    intro t h
    rw [List.all_cons, Bool.and_eq_true] at h
    rw [List.foldl_cons, ih _ h.2]
    cases a with
    | appendLog l => rfl
    | setProcLive b => rfl
    | setStatus s => exact absurd h.1 (by simp [isLogOrProc])
    | finalWrite => exact absurd h.1 (by simp [isLogOrProc])

theorem streamActions_pure (lines : List String) :
    (streamActions lines).all isLogOrProc = true := by
  rw [List.all_eq_true]
  intro a ha
  simp only [streamActions, List.mem_map] at ha
  obtain ⟨l, -, rfl⟩ := ha
  rfl

theorem stderrActions_pure (stderr : String) :
    (stderrActions stderr).all isLogOrProc = true := by
  rw [stderrActions]
  split <;> rfl

theorem accountActions_pure (bin old nw : String) (o : ImapsyncOptions)
    (acc : Account) (out : AccountOutcome) :
    (accountActions bin old nw o acc out).all isLogOrProc = true := by
  cases out with
  | ran lines stderr rc =>
    simp [accountActions, List.all_cons, List.all_append, streamActions_pure,
      stderrActions_pure, isLogOrProc]
  | raised sp lines msg =>
    cases sp <;>
      simp [accountActions, List.all_cons, List.all_append, streamActions_pure,
        stderrActions_pure, isLogOrProc]

theorem subList_correct (n h : List Char) : subList n h = true ↔ n <:+: h := by
  induction h with
  | nil =>
    simp [subList, List.isEmpty_iff]
  | cons c t ih =>
    simp [subList, List.infix_cons_iff, ih, List.isPrefixOf_iff_prefix]

theorem infix_append_right {α : Type} {n h1 : List α} (h2 : List α)
    (h : n <:+: h1) : n <:+: h1 ++ h2 := by
  obtain ⟨s, t, rfl⟩ := h
  exact ⟨s, t ++ h2, by simp⟩

theorem lowerStr_data (s : String) : (lowerStr s).data = s.data.map lowerChar := rfl

theorem lowerStr_append (a b : String) : lowerStr (a ++ b) = lowerStr a ++ lowerStr b := by
  apply String.ext
  simp [lowerStr_data]

theorem strContains_append_right (pre suf needle : String)
    (h : strContains pre needle = true) : strContains (pre ++ suf) needle = true := by
  have hi := (subList_correct _ _).1 h
  apply (subList_correct _ _).2
  rw [String.data_append]
  exact infix_append_right _ hi

theorem isFailureLog_append_of_left (pre suf : String)
    (h : isFailureLog pre = true) : isFailureLog (pre ++ suf) = true := by
  rw [isFailureLog, Bool.or_eq_true] at h ⊢
  rw [lowerStr_append]
  rcases h with h | h
  · exact Or.inl (strContains_append_right _ _ _ h)
  · exact Or.inr (strContains_append_right _ _ _ h)

theorem resultLine_failure (src tgt : String) (rc : Int) (h : rc ≠ 0) :
    isFailureLog (resultLine src tgt rc) = true := by
  rw [resultLine, if_neg (by simpa using h)]
  apply isFailureLog_append_of_left
  apply isFailureLog_append_of_left
  apply isFailureLog_append_of_left
  apply isFailureLog_append_of_left
  apply isFailureLog_append_of_left
  apply isFailureLog_append_of_left
  decide

theorem anyFailureLog_of_mem {logs : List String} {l : String}
    (hm : l ∈ logs) (hf : isFailureLog l = true) : anyFailureLog logs = true := by
  rw [anyFailureLog, List.any_eq_true]
  exact ⟨l, hm, hf⟩

theorem resultLine_mem_accountActions (bin old nw : String) (o : ImapsyncOptions)
    (acc : Account) (lines : List String) (stderr : String) (rc : Int) :
    resultLine (acc.source_email.getD "") (acc.target_email.getD (acc.source_email.getD "")) rc
      ∈ actionLogs (accountActions bin old nw o acc (.ran lines stderr rc)) := by
  simp [accountActions, actionLogs, actionLogs_append]

theorem exceptionLine_mem_accountActions (bin old nw : String) (o : ImapsyncOptions)
    (acc : Account) (spawned : Bool) (lines : List String) (msg : String) :
    ("Exception lors de la synchro: " ++ msg)
      ∈ actionLogs (accountActions bin old nw o acc (.raised spawned lines msg)) := by
  simp [accountActions, actionLogs, actionLogs_append]

theorem cmdLine_mem_accountActions (bin old nw : String) (o : ImapsyncOptions)
    (acc : Account) (out : AccountOutcome) :
    ("Commande : " ++ joinSpace (build_cmd bin old nw o acc))
      ∈ actionLogs (accountActions bin old nw o acc out) := by
  cases out <;> simp [accountActions, actionLogs]

theorem actionLogs_flatten (ls : List (List Action)) :
    actionLogs ls.flatten = (ls.map actionLogs).flatten := by
  induction ls with
  | nil => rfl
  | cons a t ih => simp [actionLogs_append, ih]

theorem run_imapsync_logs (env : Env) (outs : List AccountOutcome) (t : Task)
    (hp : env.projectFound = true) (hb : env.binExists = true) :
    (run_imapsync env outs t).logs
      = t.logs ++ actionLogs ((t.selected_accounts.zip outs).map
          (fun p => accountActions env.imapsync_bin env.old_server env.new_server
            env.opts p.1 p.2)).flatten := by
  rw [run_imapsync, runActions, hp, hb]
  simp only [Bool.not_true, Bool.false_eq_true, if_false]
  rw [List.foldl_append, foldl_applyAction_logs]
  simp [applyAction, foldl_applyAction_logs, actionLogs]

theorem run_imapsync_status (env : Env) (outs : List AccountOutcome) (t : Task)
    (hp : env.projectFound = true) (hb : env.binExists = true) :
    (run_imapsync env outs t).status
      = (if anyFailureLog (run_imapsync env outs t).logs
         then "Erreur: échecs sur un ou plusieurs comptes" else "Terminée") := by
  rw [run_imapsync, runActions, hp, hb]
  simp only [Bool.not_true, Bool.false_eq_true, if_false]
  rw [List.foldl_append]
  simp only [List.foldl_cons, List.foldl_nil]
  rfl

/-- A descriptor outcome that exited non-zero (lines 748-753). -/
def outcomeFailed : AccountOutcome → Bool
  | .ran _ _ rc => rc != 0
  | .raised _ _ _ => false

theorem mem_zip_failure_log (env : Env) (outs : List AccountOutcome) (t : Task)
    (hp : env.projectFound = true) (hb : env.binExists = true)
    (p : Account × AccountOutcome) (hm : p ∈ t.selected_accounts.zip outs)
    (hf : outcomeFailed p.2 = true) :
    anyFailureLog (run_imapsync env outs t).logs = true := by
  obtain ⟨acc, out⟩ := p
  cases out with
  | raised sp lines msg => simp [outcomeFailed] at hf
  | ran lines stderr rc =>
    rw [outcomeFailed, bne_iff_ne] at hf
    apply anyFailureLog_of_mem (l := resultLine (acc.source_email.getD "")
      (acc.target_email.getD (acc.source_email.getD "")) rc)
    · rw [run_imapsync_logs env outs t hp hb]
      apply List.mem_append_right
      rw [actionLogs_flatten]
      rw [List.mem_flatten]
      refine ⟨actionLogs (accountActions env.imapsync_bin env.old_server
        env.new_server env.opts acc (.ran lines stderr rc)), ?_, ?_⟩
      · rw [List.map_map, List.mem_map]
        exact ⟨(acc, .ran lines stderr rc), hm, rfl⟩
      · exact resultLine_mem_accountActions _ _ _ _ _ _ _ _
    · exact resultLine_failure _ _ _ hf

theorem step_logs_prefix (env : Env) (s : Sys) (e : Ev) :
    s.task.logs <+: (step env s e).task.logs := by
  cases e with
  | work i =>
    rw [step]
    cases hg : s.workers[i]? with
    | none => exact List.prefix_refl _
    | some w =>
      cases w with
      | nil => exact List.prefix_refl _
      | cons a rest =>
        cases a <;> simp [applyAction]
  | stopCall =>
    rw [step, stopTask]
    split
    · exact List.prefix_append _ _
    · exact List.prefix_refl _
  | timerFire outs =>
    rw [step]
    split
    · split <;> exact List.prefix_refl _
    · exact List.prefix_refl _

theorem step_timerPending (env : Env) (s : Sys) (e : Ev)
    (h : (step env s e).task.timerPending = true) : s.task.timerPending = true := by
  revert h
  cases e with
  | work i =>
    rw [step]
    cases hg : s.workers[i]? with
    | none => exact id
    | some w =>
      cases w with
      | nil => exact id
      | cons a rest => cases a <;> exact id
  | stopCall =>
    rw [step, stopTask]
    split <;> exact id
  | timerFire outs =>
    rw [step]
    split
    · split <;> simp
    · exact id

theorem step_workers_growth (env : Env) (s : Sys) (e : Ev)
    (h : s.workers.length < (step env s e).workers.length) :
    s.task.timerPending = true := by
  revert h
  cases e with
  | work i =>
    rw [step]
    cases hg : s.workers[i]? with
    | none => simp
    | some w =>
      cases w with
      | nil => simp
      | cons a rest => simp
  | stopCall => simp [step]
  | timerFire outs =>
    rw [step]
    split
    · intro _; assumption
    · intro h; exact absurd h (lt_irrefl _)

theorem step_no_timer (env : Env) (s : Sys) (e : Ev)
    (h : s.task.timerPending = false) :
    (step env s e).task.timerPending = false
    ∧ (step env s e).workers.length = s.workers.length := by
  cases e with
  | work i =>
    rw [step]
    cases hg : s.workers[i]? with
    | none => exact ⟨h, rfl⟩
    | some w =>
      cases w with
      | nil => exact ⟨h, rfl⟩
      | cons a rest =>
        constructor
        · cases a <;> simpa [applyAction] using h
        · simp
  | stopCall =>
    rw [step, stopTask]
    split <;> exact ⟨h, rfl⟩
  | timerFire outs =>
    rw [step]
    split
    · simp_all
    · exact ⟨h, rfl⟩

theorem foldl_start_sync (l : List (Nat × Account)) (table : TaskTable)
    (pn : String) (interval : Nat) (ids : Nat → String) :
    l.foldl (fun tb p => start_sync tb (ids p.1) pn [p.2] interval) table
      = table ++ l.map (fun p => (ids p.1, mkTask pn [p.2] interval)) := by
  induction l generalizing table with
  | nil => simp
  | cons a t ih =>
    rw [List.foldl_cons, ih]
    simp [start_sync, List.append_assoc]

theorem joinSpace_cons (x : String) (l : List String) :
    ∃ t2, joinSpace (x :: l) = x ++ t2 := by
  cases l with
  | nil => exact ⟨"", by simp [joinSpace]⟩
  | cons y t => exact ⟨" " ++ joinSpace (y :: t), by rw [joinSpace, String.append_assoc]⟩

/-- The option-dependent tail of the argument list, lines 690-717. -/
def optsSuffix (o : ImapsyncOptions) (subfolder : String) : List String :=
  (if o.ssl1 then ["--ssl1"] else [])
  ++ (if o.ssl2 then ["--ssl2"] else [])
  ++ (if o.tls1 then ["--tls1"] else [])
  ++ (if o.tls2 then ["--tls2"] else [])
  ++ (if optTruthy o.logfile then ["--logfile", o.logfile.getD ""] else [])
  ++ (if optTruthy o.authmech1 then ["--authmech1", o.authmech1.getD ""] else [])
  ++ (if optTruthy o.authmech2 then ["--authmech2", o.authmech2.getD ""] else [])
  ++ (if o.automap then ["--automap"] else [])
  ++ (if optTruthy o.regextrans2 then ["--regextrans2", o.regextrans2.getD ""] else [])
  ++ (if o.delete2 then ["--delete2"] else [])
  ++ (if natTruthy o.maxsize then ["--maxsize", toString (o.maxsize.getD 0)] else [])
  ++ (if natTruthy o.minsize then ["--minsize", toString (o.minsize.getD 0)] else [])
  ++ (if !subfolder.isEmpty then ["--regextrans2", "s/^(.*)/" ++ subfolder ++ "/$1"] else [])

theorem build_cmd_eq (imapsync_bin old_server new_server : String)
    (o : ImapsyncOptions) (acc : Account) :
    build_cmd imapsync_bin old_server new_server o acc
      = [imapsync_bin,
         "--host1", old_server,
         "--user1", acc.source_email.getD "",
         "--password1", acc.password.getD "",
         "--host2", new_server,
         "--user2", acc.target_email.getD (acc.source_email.getD ""),
         "--password2", acc.password.getD ""]
        ++ optsSuffix o (acc.subfolder.getD "") := by
  rw [build_cmd, optsSuffix]
  simp [List.append_assoc]

theorem infix_append_left {α : Type} {n h2 : List α} (h1 : List α)
    (h : n <:+: h2) : n <:+: h1 ++ h2 := by
  obtain ⟨s, t, rfl⟩ := h
  exact ⟨h1 ++ s, t, by simp [List.append_assoc]⟩

theorem cmdLine_password_split (bin old nw : String) (o : ImapsyncOptions)
    (acc : Account) :
    ∃ s1 s2 s3,
      "Commande : " ++ joinSpace (build_cmd bin old nw o acc)
        = s1 ++ acc.password.getD "" ++ s2 ++ acc.password.getD "" ++ s3 := by
  obtain ⟨t4, ht⟩ :=
    joinSpace_cons (acc.password.getD "") (optsSuffix o (acc.subfolder.getD ""))
  refine ⟨"Commande : " ++ bin ++ " " ++ "--host1" ++ " " ++ old ++ " " ++ "--user1"
      ++ " " ++ acc.source_email.getD "" ++ " " ++ "--password1" ++ " ",
    " " ++ "--host2" ++ " " ++ nw ++ " " ++ "--user2" ++ " "
      ++ acc.target_email.getD (acc.source_email.getD "") ++ " " ++ "--password2" ++ " ",
    t4, ?_⟩
  rw [build_cmd_eq]
  simp only [List.cons_append, List.nil_append]
  simp only [joinSpace]
  rw [ht]
  simp only [String.append_assoc]

theorem password_contains_lower (line pwd : String)
    (h : ∃ s1 s2 s3, line = s1 ++ pwd ++ s2 ++ pwd ++ s3) :
    strContains (lowerStr line) (lowerStr pwd) = true := by
  obtain ⟨s1, s2, s3, rfl⟩ := h
  apply (subList_correct _ _).2
  rw [lowerStr_data, lowerStr_data]
  simp only [String.data_append, List.map_append]
  refine ⟨s1.data.map lowerChar,
    s2.data.map lowerChar ++ (pwd.data.map lowerChar ++ s3.data.map lowerChar), ?_⟩
  simp [List.append_assoc]

theorem infix_logsBlock {logs : List String} {line : String} (h : line ∈ logs) :
    line.data <:+: (logsBlock logs).data := by
  induction logs with
  | nil => cases h
  | cons l t ih =>
    rw [List.mem_cons] at h
    rw [logsBlock]
    rcases h with rfl | h
    · simp only [String.data_append]
      exact ⟨[], "\n".data ++ (logsBlock t).data, by simp [List.append_assoc]⟩
    · simp only [String.data_append]
      exact infix_append_left _ (ih h)

theorem infix_export_task (tid : String) (t : Task) (line : String)
    (h : line ∈ t.logs) : line.data <:+: (export_task tid t).data := by
  rw [export_task]
  simp only [String.data_append]
  apply infix_append_right
  apply infix_append_left
  exact infix_logsBlock h

theorem infix_export_logs (table : TaskTable) (tid : String) (t : Task)
    (line : String) (hmem : (tid, t) ∈ table) (hline : line ∈ t.logs) :
    line.data <:+: (export_logs table).data := by
  induction table with
  | nil => cases hmem
  | cons p rest ih =>
    rw [List.mem_cons] at hmem
    rw [export_logs]
    rw [String.data_append]
    rcases hmem with rfl | hmem
    · exact infix_append_right _ (infix_export_task tid t line hline)
    · exact infix_append_left _ (ih hmem)

theorem search_logs_mem (table : TaskTable) (term : String) (tid : String)
    (t : Task) (line : String) (hmem : (tid, t) ∈ table) (hline : line ∈ t.logs)
    (hmatch : strContains (lowerStr line) (lowerStr term) = true) :
    ("[" ++ tid ++ "] " ++ line) ∈ search_logs table term := by
  rw [search_logs, List.mem_flatten]
  refine ⟨_, List.mem_map.2 ⟨(tid, t), hmem, rfl⟩, ?_⟩
  rw [List.mem_map]
  exact ⟨line, List.mem_filter.2 ⟨hline, hmatch⟩, rfl⟩

/-! ### Concrete fixtures for counterexamples and witnesses -/

def acc0 : Account :=
  { source_email := some "a@x", target_email := some "b@x",
    password := some "pw", subfolder := none }

def accB : Account :=
  { source_email := some "c@x", target_email := some "d@x",
    password := some "pw2", subfolder := none }

def env0 : Env :=
  { projectFound := true, binExists := true,
    imapsync_bin := "/app/bin/imapsync", old_server := "old.example",
    new_server := "new.example", opts := noOptions }

def task0 : Task := mkTask "proj" [acc0] 0

def sysRun0 : Sys := init_sys env0 "proj" [acc0] 0 [.ran [] "" (-15)]

def sysRun5 : Sys := init_sys env0 "proj" [acc0] 5 [.ran [] "" 0]

def sysStopped : Sys :=
  { task := { task0 with status := "Arrêtée" }, workers := [] }

def task5 : Task := mkTask "proj" [acc0] 5

/-! ### Claims -/

/-- Claim C1, counterexample.  A task with one account is submitted and its
worker starts (command line logged, process spawned).  `_stop_sync` is then
called while the process is live: it flips the status to "Arrêtée".  The
terminated process exits with code -15, the worker appends the failure
result line and then executes the unconditional aggregate-status write of
lines 758-764, which replaces "Arrêtée" with the Failed status — the claim
says the sequence-completion status write never overwrites Stopped. -/
theorem c1_stop_overwritten_counterexample :
    (runTrace env0 sysRun0 [.work 0, .work 0, .stopCall]).task.status = "Arrêtée"
    ∧ (runTrace env0 sysRun0
        [.work 0, .work 0, .stopCall, .work 0, .work 0, .work 0]).task.status
      = "Erreur: échecs sur un ou plusieurs comptes" := by
  constructor
  · decide
  · decide

/-- Claim C1, amended.  `stop` does flip the status to "Arrêtée"
synchronously, and a recurrence timer that fires while the status is
"Arrêtée" starts no new run and leaves the status "Arrêtée" (the guard of
`_scheduled_sync` line 645 excludes it); but the aggregate-status write at
the end of the worker never preserves "Arrêtée": it always overwrites the
status with Completed or Failed. -/
theorem c1_stopped_absorbing_amended (env : Env) (s : Sys)
    (outs : List AccountOutcome) (t : Task) :
    (t.procLive = true → (stopTask t).1.status = "Arrêtée")
    ∧ (s.task.status = "Arrêtée" →
        (step env s (.timerFire outs)).task.status = "Arrêtée"
        ∧ (step env s (.timerFire outs)).workers = s.workers)
    ∧ (applyAction t .finalWrite).status ≠ "Arrêtée" := by
  refine ⟨fun h => by simp [stopTask, h], fun h => ?_, ?_⟩
  · rw [step]
    have hr : rearmable s.task.status = false := by simp [rearmable, h]
    split
    · rw [hr]
      simp [h]
    · simp [h]
  · rw [applyAction]
    split <;> simp

/-- Witness for the amended C1 at concrete inputs. -/
theorem c1_stopped_absorbing_amended_witness :
    (stopTask { task0 with procLive := true }).1.status = "Arrêtée"
    ∧ (step env0 sysStopped (.timerFire [])).task.status = "Arrêtée"
    ∧ (applyAction task0 .finalWrite).status ≠ "Arrêtée" :=
  ⟨(c1_stopped_absorbing_amended env0 sysStopped [] { task0 with procLive := true }).1 rfl,
   ((c1_stopped_absorbing_amended env0 sysStopped [] task0).2.1 rfl).1,
   (c1_stopped_absorbing_amended env0 sysStopped [] task0).2.2⟩

/-- Claim C2, counterexample.  A task is submitted with a 5-minute
interval; its worker performs one step (the run is still in flight, the
status is still "En cours") and then the submission-armed timer fires.
`_scheduled_sync` checks only the status — "En cours" passes the guard of
line 645 — and starts a second worker for the same task: two executions of
the same task account sequence are now in flight at once. -/
theorem c2_overlap_counterexample :
    (runTrace env0 sysRun5 [.work 0, .timerFire [.ran [] "" 0]]).task.status
      = "En cours"
    ∧ (runTrace env0 sysRun5 [.work 0, .timerFire [.ran [] "" 0]]).workers.length = 2
    ∧ (runTrace env0 sysRun5 [.work 0, .timerFire [.ran [] "" 0]]).workers.all
        (fun w => !w.isEmpty) = true := by
  refine ⟨by decide, by decide, by decide⟩

/-- Claim C2, amended.  A firing recurrence timer starts a new execution
of the task account sequence exactly when the status passes the guard of
`_scheduled_sync` line 645 — "En cours", "Terminée" or the Failed status —
regardless of whether a previous execution is still in flight; "En cours"
(an in-flight run) passes the guard, so overlapping executions of the same
task are possible. -/
theorem c2_single_flight_amended (env : Env) (s : Sys)
    (outs : List AccountOutcome)
    (hp : s.task.timerPending = true) (hr : rearmable s.task.status = true) :
    (step env s (.timerFire outs)).workers
      = s.workers ++ [runActions env s.task.selected_accounts outs]
    ∧ rearmable "En cours" = true := by
  rw [step, if_pos hp, if_pos hr]
  exact ⟨rfl, by decide⟩

/-- Witness for the amended C2 at a concrete in-flight state. -/
theorem c2_single_flight_amended_witness :
    (step env0 sysRun5 (.timerFire [])).workers
      = sysRun5.workers ++ [runActions env0 sysRun5.task.selected_accounts []] :=
  (c2_single_flight_amended env0 sysRun5 [] (by decide) (by decide)).1

/-- Claim C4, counterexample.  A task is submitted with a 5-minute
interval.  The one-shot timer armed at submission fires (starting a second
worker), then the first run completes with status "Terminée" — a completion
with `interval_minutes > 0` and status not Stopped.  The claim says this
completion arms a recurrence timer; in the code no timer is ever armed
again (`_scheduled_sync` arms none), so after this completion
`timerPending` is false and recurrence has already happened for the only
time it ever will.  Moreover the timer was pending right at submission,
before any completion, contradicting "armed upon sequence completion (not
at submission)". -/
theorem c4_rearm_counterexample :
    sysRun5.task.timerPending = true
    ∧ sysRun5.task.status = "En cours"
    ∧ (runTrace env0 sysRun5
        [.timerFire [.ran [] "" 0], .work 0, .work 0, .work 0, .work 0, .work 0]).task.status
      = "Terminée"
    ∧ (runTrace env0 sysRun5
        [.timerFire [.ran [] "" 0], .work 0, .work 0, .work 0, .work 0, .work 0]).task.interval
      = 5
    ∧ (runTrace env0 sysRun5
        [.timerFire [.ran [] "" 0], .work 0, .work 0, .work 0, .work 0, .work 0]).task.timerPending
      = false := by
  refine ⟨by decide, by decide, by decide, by decide, by decide⟩

/-- Claim C4, amended.  With `interval_minutes > 0` a one-shot timer is
armed once, at submission (`_start_sync` lines 635-640), and is the only
timer the task ever gets: no step of the system re-arms it, and the set of
in-flight workers can only grow at a `timerFire` event while that one
timer is pending.  Consequently with `interval_minutes = 0` no timer is
ever pending and no second execution ever starts spontaneously. -/
theorem c4_timer_amended (env : Env) (pn : String) (accs : List Account)
    (interval : Nat) (outs : List AccountOutcome) (s : Sys) (e : Ev)
    (evs : List Ev) :
    (mkTask pn accs interval).timerPending = decide (0 < interval)
    ∧ ((step env s e).task.timerPending = true → s.task.timerPending = true)
    ∧ (s.workers.length < (step env s e).workers.length →
        s.task.timerPending = true)
    ∧ ((runTrace env (init_sys env pn accs 0 outs) evs).workers.length ≤ 1
       ∧ (runTrace env (init_sys env pn accs 0 outs) evs).task.timerPending = false) := by
  refine ⟨rfl, step_timerPending env s e, step_workers_growth env s e, ?_⟩
  have key : ∀ (l : List Ev) (s2 : Sys), s2.workers.length ≤ 1 →
      s2.task.timerPending = false →
      (runTrace env s2 l).workers.length ≤ 1
      ∧ (runTrace env s2 l).task.timerPending = false := by
    intro l
    induction l with
    | nil => intro s2 h1 h2; exact ⟨h1, h2⟩
    | cons e2 rest ih =>
      intro s2 h1 h2
      have hs := step_no_timer env s2 e2 h2
      have := ih (step env s2 e2) (by omega) hs.1
      simpa [runTrace] using this
  exact key evs _ (by rw [init_sys]; simp) (by rw [init_sys]; simp [mkTask])

/-- Witness for the amended C4: the hypotheses of its conditional parts
discharged at concrete inputs. -/
theorem c4_timer_amended_witness :
    sysRun5.task.timerPending = true
    ∧ ((runTrace env0 (init_sys env0 "proj" [acc0] 0 [.ran [] "" 0])
        [.timerFire [], .work 0]).workers.length ≤ 1
       ∧ (runTrace env0 (init_sys env0 "proj" [acc0] 0 [.ran [] "" 0])
           [.timerFire [], .work 0]).task.timerPending = false) :=
  ⟨(c4_timer_amended env0 "proj" [acc0] 5 [] sysRun5 (.timerFire []) []).2.2.1
      (by decide),
   (c4_timer_amended env0 "proj" [acc0] 0 [.ran [] "" 0] sysRun5 (.work 0)
      [.timerFire [], .work 0]).2.2.2⟩

/-- Claim C3, counterexample.  The failure scan of line 761 runs over the
task entire accumulated `logs`, not over the lines of the finishing run.
A first run fails (exit code 1), leaving a line containing "échouée" in
the logs.  The recurrence run that follows exits 0 on every descriptor and
appends no failure-signal line of its own — per the claim its completion
should set "Terminée" — yet the status becomes the Failed status, because
the first run failure line still matches the scan. -/
theorem c3_aggregate_status_counterexample :
    (run_imapsync env0 [.ran [] "" 1] task0).status
      = "Erreur: échecs sur un ou plusieurs comptes"
    ∧ ((run_imapsync env0 [.ran [] "" 0] (run_imapsync env0 [.ran [] "" 1] task0)).logs.drop
        (run_imapsync env0 [.ran [] "" 1] task0).logs.length).all
        (fun l => !isFailureLog l) = true
    ∧ (run_imapsync env0 [.ran [] "" 0] (run_imapsync env0 [.ran [] "" 1] task0)).status
      = "Erreur: échecs sur un ou plusieurs comptes" := by
  refine ⟨by decide, by decide, by decide⟩

/-- Claim C3, amended.  After an account sequence finishes (project and
binary found), the aggregate status is computed exactly once, by the
single final write of lines 758-764: the status becomes the Failed status
exactly when some line of the task entire accumulated logs — lines of
earlier runs included — case-insensitively contains "échouée" or "erreur",
and "Terminée" otherwise.  Any descriptor that exited non-zero contributes
such a line, so its sequence ends Failed.  On a fresh task, synthetic exit
codes 0,0,0 yield "Terminée" and 0,1,0 yield the Failed status (see the
witness). -/
theorem c3_aggregate_status_amended (env : Env) (outs : List AccountOutcome)
    (t : Task) (hp : env.projectFound = true) (hb : env.binExists = true) :
    (run_imapsync env outs t).status
      = (if anyFailureLog (run_imapsync env outs t).logs
         then "Erreur: échecs sur un ou plusieurs comptes" else "Terminée")
    ∧ (∀ p ∈ t.selected_accounts.zip outs, outcomeFailed p.2 = true →
        (run_imapsync env outs t).status
          = "Erreur: échecs sur un ou plusieurs comptes") := by
  refine ⟨run_imapsync_status env outs t hp hb, fun p hm hf => ?_⟩
  rw [run_imapsync_status env outs t hp hb,
    mem_zip_failure_log env outs t hp hb p hm hf]
  rfl

/-- Witness for the amended C3: the synthetic exit-code checks of the
claim, derived through the amended theorem on a fresh three-account task. -/
theorem c3_aggregate_status_amended_witness :
    (run_imapsync env0 [.ran [] "" 0, .ran [] "" 0, .ran [] "" 0]
      (mkTask "proj" [acc0, acc0, acc0] 0)).status = "Terminée"
    ∧ (run_imapsync env0 [.ran [] "" 0, .ran [] "" 1, .ran [] "" 0]
        (mkTask "proj" [acc0, acc0, acc0] 0)).status
      = "Erreur: échecs sur un ou plusieurs comptes" := by
  constructor
  · rw [(c3_aggregate_status_amended env0 [.ran [] "" 0, .ran [] "" 0, .ran [] "" 0]
      (mkTask "proj" [acc0, acc0, acc0] 0) rfl rfl).1]
    decide
  · exact (c3_aggregate_status_amended env0 [.ran [] "" 0, .ran [] "" 1, .ran [] "" 0]
      (mkTask "proj" [acc0, acc0, acc0] 0) rfl rfl).2
      (acc0, .ran [] "" 1) (by decide) (by decide)

/-- Claim C5.  The submission flow rejects an empty account selection
synchronously (error popup, lines 527-529 and 584-586) before any task is
created, and this is its only failure: with a non-empty selection it
reports success and appends exactly one new task per selected account to
the table, leaving the existing entries in place. -/
theorem c5_submit_empty_rejected (table : TaskTable) (pn : String)
    (accs : List Account) (interval : Nat) (ids : Nat → String) :
    (accs = [] → submit table pn accs interval ids = (table, .invalidRequest))
    ∧ (accs ≠ [] →
        (submit table pn accs interval ids).2 = .ok
        ∧ (submit table pn accs interval ids).1
            = table ++ accs.enum.map
                (fun p => (ids p.1, mkTask pn [p.2] interval))) := by
  constructor
  · intro h
    subst h
    rfl
  · intro h
    rw [submit, if_neg (by simpa [List.isEmpty_iff] using h)]
    exact ⟨rfl, foldl_start_sync _ _ _ _ _⟩

/-- Witness for C5: the empty and the one-account submissions. -/
theorem c5_submit_empty_rejected_witness :
    submit [] "proj" [] 0 (fun _ => "id0") = ([], .invalidRequest)
    ∧ (submit [] "proj" [acc0] 0 (fun _ => "id0")).2 = .ok :=
  ⟨(c5_submit_empty_rejected [] "proj" [] 0 (fun _ => "id0")).1 rfl,
   ((c5_submit_empty_rejected [] "proj" [acc0] 0 (fun _ => "id0")).2
      (by simp)).1⟩

/-- Claim C6, counterexample.  `_stop_sync` never touches the recurrence
timer: stopping a task with a live process and a pending timer reports
"stopped" yet leaves the timer pending (nothing in lines 1167-1180 cancels
it); and on a task with a pending timer but no live process it reports the
not-running error — the claim says NotRunning is signalled only when no
timer is pending, and that stop disarms a pending timer. -/
theorem c6_stop_counterexample :
    (stop_sync (some { task5 with procLive := true })).2 = .stopped
    ∧ ((stop_sync (some { task5 with procLive := true })).1.map
        Task.timerPending) = some true
    ∧ (stop_sync (some task5)).2 = .notRunning
    ∧ ((stop_sync (some task5)).1.map Task.timerPending) = some true := by
  refine ⟨by decide, by decide, by decide, by decide⟩

/-- Claim C6, amended.  `stop` on a task whose process is live terminates
it, sets the status to "Arrêtée" and appends the manual-cancellation log
line, but leaves every other field — the pending recurrence timer
included — untouched; on a task without a live process it reports the
not-running error and changes nothing, regardless of any pending timer;
on an unknown task id it reports the lookup error and changes nothing. -/
theorem c6_stop_amended (t : Task) :
    (t.procLive = true →
      stop_sync (some t)
        = (some { t with status := "Arrêtée",
                         logs := t.logs ++ ["Synchronisation arrêtée manuellement."] },
           .stopped))
    ∧ (t.procLive = false → stop_sync (some t) = (some t, .notRunning))
    ∧ stop_sync none = (none, .noTask) := by
  refine ⟨fun h => ?_, fun h => ?_, rfl⟩
  · rw [stop_sync, stopTask, if_pos h]
    rfl
  · rw [stop_sync, stopTask, if_neg (by simp [h])]
    rfl

/-- Witness for the amended C6 at concrete tasks. -/
theorem c6_stop_amended_witness :
    stop_sync (some { task0 with procLive := true })
      = (some { { task0 with procLive := true } with
                  status := "Arrêtée",
                  logs := ["Synchronisation arrêtée manuellement."] }, .stopped)
    ∧ stop_sync (some task0) = (some task0, .notRunning) := by
  constructor
  · have h := (c6_stop_amended { task0 with procLive := true }).1 rfl
    simpa [task0, mkTask] using h
  · exact (c6_stop_amended task0).2.1 rfl

/-- Claim C7, counterexample.  The missing-project failure path of lines
657-660 sets the error status and returns without appending any log line:
an error is recorded only in `status`, never in `logs` — a silently
unlogged failure path the claim says does not exist. -/
theorem c7_silent_error_counterexample :
    (run_imapsync { env0 with projectFound := false } [.ran [] "" 0]
      { task0 with logs := ["x"] }).logs = ["x"]
    ∧ (run_imapsync { env0 with projectFound := false } [.ran [] "" 0]
        { task0 with logs := ["x"] }).status = "Erreur: Projet introuvable" := by
  exact ⟨by decide, by decide⟩

/-- Claim C7, amended.  Every failure path of the worker except the
missing-project path appends at least one log line: a missing binary
appends the lookup-failure line (lines 664-667); a non-zero exit appends
the per-account failure result line (line 753); an unexpected exception
appends the exception line (line 756).  The missing-project path (lines
657-660) is the exception: it only sets the error status and appends
nothing. -/
theorem c7_error_logging_amended (env : Env) (outs : List AccountOutcome)
    (t : Task) (bin old nw : String) (o : ImapsyncOptions) (acc : Account)
    (lines : List String) (stderr msg : String) (rc : Int) (spawned : Bool) :
    (env.projectFound = true → env.binExists = false →
      (run_imapsync env outs t).logs
        = t.logs ++ ["Binaire imapsync introuvable à " ++ env.imapsync_bin])
    ∧ resultLine (acc.source_email.getD "")
        (acc.target_email.getD (acc.source_email.getD "")) rc
        ∈ actionLogs (accountActions bin old nw o acc (.ran lines stderr rc))
    ∧ (rc ≠ 0 →
        isFailureLog (resultLine (acc.source_email.getD "")
          (acc.target_email.getD (acc.source_email.getD "")) rc) = true)
    ∧ ("Exception lors de la synchro: " ++ msg)
        ∈ actionLogs (accountActions bin old nw o acc (.raised spawned lines msg))
    ∧ (env.projectFound = false →
        (run_imapsync env outs t).logs = t.logs
        ∧ (run_imapsync env outs t).status = "Erreur: Projet introuvable") := by
  refine ⟨fun hp hb => ?_, resultLine_mem_accountActions _ _ _ _ _ _ _ _,
    resultLine_failure _ _ _, exceptionLine_mem_accountActions _ _ _ _ _ _ _ _,
    fun hp => ?_⟩
  · rw [run_imapsync, runActions, hp, hb]
    simp [applyAction, actionLogs]
  · rw [run_imapsync, runActions, hp]
    simp [applyAction]

/-- Witness for the amended C7 at concrete inputs. -/
theorem c7_error_logging_amended_witness :
    (run_imapsync { env0 with binExists := false } [.ran [] "" 0] task0).logs
      = ["Binaire imapsync introuvable à /app/bin/imapsync"]
    ∧ isFailureLog (resultLine "a@x" "b@x" 1) = true
    ∧ (run_imapsync { env0 with projectFound := false } [.ran [] "" 0] task0).logs
      = task0.logs := by
  refine ⟨?_, ?_, ?_⟩
  · have h := (c7_error_logging_amended { env0 with binExists := false }
      [.ran [] "" 0] task0 "b" "o" "n" noOptions acc0 [] "" "" 0 false).1 rfl rfl
    simpa [task0, mkTask, env0] using h
  · exact (c7_error_logging_amended env0 [] task0 "b" "o" "n" noOptions
      { source_email := some "a@x", target_email := some "b@x",
        password := some "pw", subfolder := none } [] "" "" 1 false).2.2.1 (by decide)
  · exact ((c7_error_logging_amended { env0 with projectFound := false }
      [.ran [] "" 0] task0 "b" "o" "n" noOptions acc0 [] "" "" 0 false).2.2.2.2 rfl).1

/-- Claim C8.  With project and binary found, the worker runs the loop of
lines 673-756 over every account of the sequence: the final logs are the
old logs followed by each account log lines in order, every account in
the sequence has its command line appended no matter what the outcomes of
the other accounts were (a non-zero exit or an exception is logged by its
own account lines and the loop continues), and the worker always reaches
the aggregate-status write — it never crashes with a partial status. -/
theorem c8_failure_absorbed (env : Env) (outs : List AccountOutcome) (t : Task)
    (hp : env.projectFound = true) (hb : env.binExists = true)
    (hl : t.selected_accounts.length = outs.length) :
    (run_imapsync env outs t).logs
      = t.logs ++ ((t.selected_accounts.zip outs).map
          (fun p => actionLogs (accountActions env.imapsync_bin env.old_server
            env.new_server env.opts p.1 p.2))).flatten
    ∧ (∀ i (hi : i < t.selected_accounts.length),
        ("Commande : " ++ joinSpace (build_cmd env.imapsync_bin env.old_server
          env.new_server env.opts t.selected_accounts[i]))
          ∈ (run_imapsync env outs t).logs)
    ∧ ((run_imapsync env outs t).status = "Terminée"
       ∨ (run_imapsync env outs t).status
           = "Erreur: échecs sur un ou plusieurs comptes") := by
  have hlogs := run_imapsync_logs env outs t hp hb
  refine ⟨?_, fun i hi => ?_, ?_⟩
  · rw [hlogs, actionLogs_flatten, List.map_map]
    rfl
  · have hio : i < outs.length := by omega
    have hiz : i < (t.selected_accounts.zip outs).length := by
      rw [List.length_zip]
      omega
    rw [hlogs]
    apply List.mem_append_right
    rw [actionLogs_flatten, List.map_map]
    rw [List.mem_flatten]
    refine ⟨actionLogs (accountActions env.imapsync_bin env.old_server
      env.new_server env.opts t.selected_accounts[i] outs[i]), ?_, ?_⟩
    · rw [List.mem_map]
      refine ⟨(t.selected_accounts[i], outs[i]), ?_, rfl⟩
      have hz := @List.getElem_zip _ _ t.selected_accounts outs i hiz
      rw [← hz]
      exact List.getElem_mem _
    · exact cmdLine_mem_accountActions _ _ _ _ _ _
  · rw [run_imapsync_status env outs t hp hb]
    split
    · exact Or.inr rfl
    · exact Or.inl rfl

/-- Witness for C8: on a two-account task whose first account raises an
exception, the second account is still executed (its command line is
appended). -/
theorem c8_failure_absorbed_witness :
    ("Commande : " ++ joinSpace (build_cmd "/app/bin/imapsync" "old.example"
      "new.example" noOptions accB))
      ∈ (run_imapsync env0 [.raised false [] "boom", .ran [] "" 0]
          (mkTask "proj" [acc0, accB] 0)).logs := by
  have h := (c8_failure_absorbed env0 [.raised false [] "boom", .ran [] "" 0]
    (mkTask "proj" [acc0, accB] 0) rfl rfl rfl).2.1 1 (by decide)
  simpa [mkTask, env0] using h

/-- Claim C9.  The task logs sequence is append-only across every event
of the system — worker steps (log appends, process-handle flips, the
aggregate-status write), `stop` calls and timer firings: after any event
sequence the old logs are a prefix of the new logs, so nothing is ever
removed, reordered or replaced and new entries only go to the end. -/
theorem c9_logs_append_only (env : Env) (s : Sys) (evs : List Ev) :
    s.task.logs <+: (runTrace env s evs).task.logs := by
  induction evs generalizing s with
  | nil => exact List.prefix_refl _
  | cons e rest ih =>
    have h1 := step_logs_prefix env s e
    have h2 := ih (step env s e)
    rw [runTrace] at h2 ⊢
    rw [List.foldl_cons]
    exact h1.trans h2

/-- Claim C10.  For every executed account the worker appends the line
"Commande : " followed by the joined argument list (line 721); that line
contains the account clear-text password twice, as the values of
`--password1` and `--password2` (both receive the same `password`, lines
683 and 686).  Whenever such a line is in a task logs it is contained in
the `_export_logs` output and is found by `_search_logs` when the search
term is the password itself. -/
theorem c10_password_cleartext (bin old nw : String) (o : ImapsyncOptions)
    (acc : Account) (out : AccountOutcome) (table : TaskTable) (tid : String)
    (t : Task) :
    (∃ s1 s2 s3,
      "Commande : " ++ joinSpace (build_cmd bin old nw o acc)
        = s1 ++ acc.password.getD "" ++ s2 ++ acc.password.getD "" ++ s3)
    ∧ ("Commande : " ++ joinSpace (build_cmd bin old nw o acc))
        ∈ actionLogs (accountActions bin old nw o acc out)
    ∧ ((tid, t) ∈ table →
        ("Commande : " ++ joinSpace (build_cmd bin old nw o acc)) ∈ t.logs →
        ("Commande : " ++ joinSpace (build_cmd bin old nw o acc)).data
          <:+: (export_logs table).data)
    ∧ ((tid, t) ∈ table →
        ("Commande : " ++ joinSpace (build_cmd bin old nw o acc)) ∈ t.logs →
        ("[" ++ tid ++ "] "
            ++ ("Commande : " ++ joinSpace (build_cmd bin old nw o acc)))
          ∈ search_logs table (acc.password.getD "")) :=
  ⟨cmdLine_password_split bin old nw o acc,
   cmdLine_mem_accountActions bin old nw o acc out,
   fun hm hl => infix_export_logs table tid t _ hm hl,
   fun hm hl => search_logs_mem table (acc.password.getD "") tid t _ hm hl
     (password_contains_lower _ _ (cmdLine_password_split bin old nw o acc))⟩

/-- Witness for C10: a one-task table whose logs hold a command line; the
line is in the export text and the password search finds it. -/
theorem c10_password_cleartext_witness :
    ("Commande : " ++ joinSpace (build_cmd "/app/bin/imapsync" "old.example"
      "new.example" noOptions acc0)).data
      <:+: (export_logs [("tid0", { task0 with
              logs := ["Commande : " ++ joinSpace (build_cmd "/app/bin/imapsync"
                "old.example" "new.example" noOptions acc0)] })]).data
    ∧ ("[" ++ "tid0" ++ "] " ++ ("Commande : " ++ joinSpace (build_cmd
          "/app/bin/imapsync" "old.example" "new.example" noOptions acc0)))
      ∈ search_logs [("tid0", { task0 with
          logs := ["Commande : " ++ joinSpace (build_cmd "/app/bin/imapsync"
            "old.example" "new.example" noOptions acc0)] })]
          (acc0.password.getD "") :=
  ⟨(c10_password_cleartext "/app/bin/imapsync" "old.example" "new.example"
      noOptions acc0 (.ran [] "" 0) _ "tid0" _).2.2.1
      (List.mem_singleton.mpr rfl) (List.mem_singleton.mpr rfl),
   (c10_password_cleartext "/app/bin/imapsync" "old.example" "new.example"
      noOptions acc0 (.ran [] "" 0) _ "tid0" _).2.2.2
      (List.mem_singleton.mpr rfl) (List.mem_singleton.mpr rfl)⟩

end ImapsyncUI
